import Mathlib

/-!
Shallow embedding of the `cppLoger` logging library (`src/include/Logger.hpp`)
and proofs about the claims of its specification.

The C++ source is embedded as follows: `enum LogLevel` becomes an inductive
type, the `Logger` singleton becomes an explicit state record (`LoggerState`)
threaded through the operations, external effects (`std::time`, `strftime`,
`fopen`, the two output channels) become an explicit environment record
(`LogEnv`) and an event list returned by `log`, and the `LogStream` stack
buffer becomes a record holding the 4096-entry character list together with
the write offset.  Machine integers (`time_t`, `int`, the `to_chars`
argument) are modelled as `Int`/`Nat`; C strings are `String`/`List Char`
(a possibly-null `const char*` is `Option String`).
-/

set_option maxRecDepth 10000

/-- Model of `enum LogLevel` (Logger.hpp lines 34-39): DEBUG < INFO < WARNING < ERROR. -/
inductive LogLevel where
  | DEBUG
  | INFO
  | WARNING
  | ERROR
deriving DecidableEq, Repr

/-- Numeric value of the C enumerator, used for the severity comparisons. -/
def LogLevel.toNat : LogLevel → Nat
  | .DEBUG => 0
  | .INFO => 1
  | .WARNING => 2
  | .ERROR => 3

/-- Model of `logLevelToString` (Logger.hpp lines 46-54).  The `default`
branch of the C `switch` is unreachable for the four declared enumerators. -/
def logLevelToString : LogLevel → String
  | .DEBUG => "DEBUG"
  | .INFO => "INFO"
  | .WARNING => "WARNING"
  | .ERROR => "ERROR"

/-- Model of `logLevelToColorCode` (Logger.hpp lines 61-69): ANSI color
escape per severity (blue, green, yellow, red). -/
def logLevelToColorCode : LogLevel → String
  | .DEBUG => "\x1b[34m"
  | .INFO => "\x1b[32m"
  | .WARNING => "\x1b[33m"
  | .ERROR => "\x1b[31m"

/-- Model of `StdManipulator` (Logger.hpp lines 78-92): the wrapped type tag. -/
inductive StdManipulator where
  | Endl
  | Flush
  | None
deriving DecidableEq, Repr

/-- Decimal digit characters of a positive natural number, most significant
first; mirrors the characters produced by `std::to_chars` / `%d` for a
positive value.  (`Nat.digits` is little endian, hence the `reverse`.) -/
def natDigitChars (n : Nat) : List Char :=
  ((Nat.digits 10 n).reverse).map (fun d => Char.ofNat (48 + d))

/-- Decimal character sequence produced by `std::to_chars` (and `%d`) for an
integer: optional leading `-`, then the digits with no leading zero. -/
def intToChars (n : Int) : List Char :=
  if n = 0 then ['0']
  else if n < 0 then '-' :: natDigitChars (-n).toNat
  else natDigitChars n.toNat

/-- Index of the last `.` in a character list, if any; model of
`std::string::find_last_of('.')` used in `Logger::openLogFile`. -/
def lastDotPos : List Char → Option Nat
  | [] => none
  | c :: rest =>
    match lastDotPos rest with
    | some i => some (i + 1)
    | none => if c = '.' then some 0 else none

/-- Path computation of `Logger::openLogFile` (Logger.hpp lines 297-307):
`strftime` renders the fixed suffix `-%Y%m%d.log`; if the base path has a
last `.` the suffix replaces everything from that dot, otherwise it is
appended.  `dateStr` is the `%Y%m%d` rendering of the current day. -/
def rotatedPath (base : String) (dateStr : String) : String :=
  let suffix := "-" ++ dateStr ++ ".log"
  match lastDotPos base.data with
  | none => base ++ suffix
  | some dotPos => String.mk (base.data.take dotPos) ++ suffix

/-- Mutable state of the `Logger` singleton (Logger.hpp lines 230-238).
The mutex is not represented: every operation below is one critical
section. -/
structure LoggerState where
  level_ : LogLevel
  console_ : Bool
  fileEnabled_ : Bool
  baseFilePath_ : String
  fileHandle_ : Option Nat
  fileOpenTime_ : Int
  lastTime_ : Int
  timeStr_ : String
deriving DecidableEq, Repr

/-- State of the `Logger` right after its private constructor
(Logger.hpp lines 243-247): level INFO, console on, file off, no handle,
zeroed times, zeroed (empty) time string. -/
def initialLoggerState : LoggerState :=
  { level_ := .INFO, console_ := true, fileEnabled_ := false,
    baseFilePath_ := "", fileHandle_ := none, fileOpenTime_ := 0,
    lastTime_ := 0, timeStr_ := "" }

/-- Environment of one `Logger` operation: the wall clock second returned by
`std::time(nullptr)`, the `localtime`+`strftime` renderings (`fmt` for
`"%Y-%m-%d %H:%M:%S"`, `dateStr` for `"%Y%m%d"`), and the result of
`fopen(path, "a")` (`none` models a failed open). -/
structure LogEnv where
  now : Int
  fmt : Int → String
  dateStr : Int → String
  fopen : String → Option Nat

/-- One observable write performed by `Logger::log`: a line sent to stdout,
or a line written (and flushed) to the open file handle. -/
inductive OutEvent where
  | consoleLine (s : String)
  | fileLine (h : Nat) (s : String)
deriving DecidableEq, Repr

/-- Result of one `Logger::log` call: the successor state, the emitted
output lines in order, whether `updateTimeStr` (`strftime`) ran, and the
paths passed to `fopen` during the call (re-open attempts). -/
structure LogResult where
  state : LoggerState
  events : List OutEvent
  formatted : Bool
  opens : List String
deriving Repr

/-- Model of `Logger::openLogFile` (Logger.hpp lines 287-318): close any
open handle, compute the rotated path, `fopen` it for append, and record
the open time on success.  Returns the state and the attempted path.
(The source first nulls the handle via `closeLogFile` and then stores the
`fopen` result; the two branches here are the two resulting states.) -/
def openLogFile (env : LogEnv) (st : LoggerState) : LoggerState × String :=
  match env.fopen (rotatedPath st.baseFilePath_ (env.dateStr env.now)) with
  | some h =>
      ({ st with fileHandle_ := some h, fileOpenTime_ := env.now },
       rotatedPath st.baseFilePath_ (env.dateStr env.now))
  | none =>
      ({ st with fileHandle_ := none },
       rotatedPath st.baseFilePath_ (env.dateStr env.now))

/-- Time-cache step of `Logger::log` (Logger.hpp lines 181-185): refresh the
cached time string only when the current second differs from the cached
second.  The returned Bool records whether `updateTimeStr` ran. -/
def timeStep (env : LogEnv) (st : LoggerState) : LoggerState × Bool :=
  if env.now = st.lastTime_ then (st, false)
  else ({ st with timeStr_ := env.fmt env.now, lastTime_ := env.now }, true)

/-- Console line of `Logger::log` (Logger.hpp lines 193-195): format string
`"%s [%s%s%s] %s:%d - %s\n"` with time, color, level, reset, file, line,
message. -/
def consoleRender (timeStr : String) (level : LogLevel) (file : String)
    (line : Int) (message : String) : String :=
  timeStr ++ " [" ++ logLevelToColorCode level ++ logLevelToString level ++
    "\x1b[0m" ++ "] " ++ file ++ ":" ++ String.mk (intToChars line) ++
    " - " ++ message ++ "\n"

/-- File line of `Logger::log` (Logger.hpp lines 211-212): format string
`"%s [%s] %s:%d - %s\n"` with time, level, file, line, message. -/
def fileRender (timeStr : String) (level : LogLevel) (file : String)
    (line : Int) (message : String) : String :=
  timeStr ++ " [" ++ logLevelToString level ++ "] " ++ file ++ ":" ++
    String.mk (intToChars line) ++ " - " ++ message ++ "\n"

/-- Common layout `TIME [token] file:line - message\n` shared by the two
format strings of `Logger::log`, abstracted over the level token; used to
state that console and file renderings differ only in the token. -/
def layoutRender (timeStr levelToken file : String) (line : Int)
    (message : String) : String :=
  timeStr ++ " [" ++ levelToken ++ "] " ++ file ++ ":" ++
    String.mk (intToChars line) ++ " - " ++ message ++ "\n"

/-- Console branch of `Logger::log` (Logger.hpp lines 188-196). -/
def consoleStep (st : LoggerState) (level : LogLevel) (file : String)
    (line : Int) (message : String) : List OutEvent :=
  if st.console_ then [.consoleLine (consoleRender st.timeStr_ level file line message)]
  else []

/-- Rotation check inside the file branch of `Logger::log`
(Logger.hpp lines 200-203): reopen when the handle is older than 24 hours. -/
def rotateIfStale (env : LogEnv) (st : LoggerState) : LoggerState × List String :=
  if env.now - st.fileOpenTime_ > 60 * 60 * 24 then
    ((openLogFile env st).1, [(openLogFile env st).2])
  else (st, [])

/-- Retry inside the file branch of `Logger::log` (Logger.hpp lines
205-208): reopen when the handle is invalid (only reachable after a failed
rotation open, because of the enclosing `fileHandle_` guard). -/
def reopenIfClosed (env : LogEnv) (st : LoggerState) (opens : List String) :
    LoggerState × List String :=
  if st.fileHandle_.isNone then
    ((openLogFile env st).1, opens ++ [(openLogFile env st).2])
  else (st, opens)

/-- Final write of the file branch of `Logger::log` (Logger.hpp lines
210-214): write and flush through the handle when one is open. -/
def writeIfOpen (st : LoggerState) (level : LogLevel) (file : String)
    (line : Int) (message : String) (opens : List String) :
    LoggerState × List OutEvent × List String :=
  match st.fileHandle_ with
  | some hd =>
      (st, [.fileLine hd (fileRender st.timeStr_ level file line message)], opens)
  | none => (st, [], opens)

/-- File branch of `Logger::log` (Logger.hpp lines 199-215): guarded by
`fileEnabled_ && fileHandle_`; inside, rotate after 24 hours, retry a
failed rotation open, then write and flush through the current handle. -/
def fileStep (env : LogEnv) (st : LoggerState) (level : LogLevel)
    (file : String) (line : Int) (message : String) :
    LoggerState × List OutEvent × List String :=
  if st.fileEnabled_ && st.fileHandle_.isSome then
    writeIfOpen
      (reopenIfClosed env (rotateIfStale env st).1 (rotateIfStale env st).2).1
      level file line message
      (reopenIfClosed env (rotateIfStale env st).1 (rotateIfStale env st).2).2
  else (st, [], [])

/-- Model of `Logger::log` (Logger.hpp lines 174-216): fast severity filter,
time-cache refresh, console write, then file write. -/
def Logger.log (env : LogEnv) (st : LoggerState) (level : LogLevel)
    (message file : String) (line : Int) : LogResult :=
  if level.toNat < st.level_.toNat then ⟨st, [], false, []⟩
  else
    ⟨(fileStep env (timeStep env st).1 level file line message).1,
     consoleStep (timeStep env st).1 level file line message ++
       (fileStep env (timeStep env st).1 level file line message).2.1,
     (timeStep env st).2,
     (fileStep env (timeStep env st).1 level file line message).2.2⟩

/-- Model of `Logger::setConsole` (Logger.hpp lines 145-148). -/
def Logger.setConsole (st : LoggerState) (console : Bool) : LoggerState :=
  { st with console_ := console }

/-- Model of `Logger::setFile` (Logger.hpp lines 155-165): store the flag
and base path, then open (enable with non-empty path) or close. -/
def Logger.setFile (env : LogEnv) (st : LoggerState) (enable : Bool)
    (filePath : String) : LoggerState × List String :=
  let st1 := { st with fileEnabled_ := enable, baseFilePath_ := filePath }
  if enable && !filePath.isEmpty then
    let r := openLogFile env st1
    (r.1, [r.2])
  else
    ({ st1 with fileHandle_ := none }, [])

/-- True when the event list contains a console write. -/
def hasConsole (evs : List OutEvent) : Bool :=
  evs.any fun e => match e with | .consoleLine _ => true | _ => false

/-- True when the event list contains a file write. -/
def hasFile (evs : List OutEvent) : Bool :=
  evs.any fun e => match e with | .fileLine _ _ => true | _ => false

/-- Model of `LogStream::BUFFER_SIZE` (Logger.hpp line 432). -/
def BUFFER_SIZE : Nat := 4096

/-- Model of a `LogStream` object (Logger.hpp lines 326-452): the fixed
4096-byte character buffer, write offset, and the severity / call site
bound at construction.  `oob` is a ghost flag recording whether any write
ever targeted an index outside the buffer (undefined behaviour in C++);
the safety claims prove it stays `false`. -/
structure LogStream where
  buffer_ : List Char
  offset_ : Nat
  level_ : LogLevel
  file_ : String
  line_ : Int
  oob : Bool
deriving DecidableEq, Repr

/-- The `LogStream` constructor (Logger.hpp lines 334-337): fresh buffer
with `buffer_[0] = '\0'`, offset 0.  Unwritten cells of the C++ buffer are
indeterminate; the model fills them with NUL, and no theorem reads a cell
that the code has not written. -/
def LogStream.create (level : LogLevel) (file : String) (line : Int) : LogStream :=
  { buffer_ := List.replicate BUFFER_SIZE '\x00', offset_ := 0,
    level_ := level, file_ := file, line_ := line, oob := false }

/-- One store `buffer_[i] = c`.  An in-range index updates the cell; an
out-of-range index would be undefined behaviour in C++ and is recorded in
the ghost flag. -/
def LogStream.writeChar (s : LogStream) (i : Nat) (c : Char) : LogStream :=
  if i < s.buffer_.length then { s with buffer_ := s.buffer_.set i c }
  else { s with oob := true }

/-- The copy loop of `LogStream::append` (Logger.hpp lines 444-448):
`while (str[len] && offset_ + len < BUFFER_SIZE - 1)` copying one character
per iteration.  Returns the state and the final `offset_ + len`. -/
def copyLoop (s : LogStream) (cs : List Char) (pos : Nat) : LogStream × Nat :=
  match cs with
  | [] => (s, pos)
  | c :: rest =>
    if pos < BUFFER_SIZE - 1 then copyLoop (s.writeChar pos c) rest (pos + 1)
    else (s, pos)

/-- Model of `LogStream::append` (Logger.hpp lines 443-451): copy while room
remains, advance the offset, and re-terminate with NUL. -/
def LogStream.append (s : LogStream) (cs : List Char) : LogStream :=
  let r := copyLoop s cs s.offset_
  LogStream.writeChar { r.1 with offset_ := r.2 } r.2 '\x00'

/-- Boolean branch of `operator<<` for arithmetic types
(Logger.hpp lines 352-354). -/
def LogStream.appendBool (s : LogStream) (b : Bool) : LogStream :=
  s.append (if b then "true".data else "false".data)

/-- Char branch of `operator<<` (Logger.hpp lines 355-360 and 423-429):
store the character and a new NUL if `offset_ < BUFFER_SIZE - 1`. -/
def LogStream.appendCharVal (s : LogStream) (c : Char) : LogStream :=
  if s.offset_ < BUFFER_SIZE - 1 then
    LogStream.writeChar
      { LogStream.writeChar s s.offset_ c with offset_ := s.offset_ + 1 }
      (s.offset_ + 1) '\x00'
  else s

/-- Round a rational to the nearest integer, ties to even: the rounding
`printf` applies when converting the exact binary value of a double to a
fixed-point decimal. -/
def roundHalfEven (a : Rat) : Int :=
  if a - ⌊a⌋ < 1 / 2 then ⌊a⌋
  else if a - ⌊a⌋ > 1 / 2 then ⌊a⌋ + 1
  else if ⌊a⌋ % 2 = 0 then ⌊a⌋ else ⌊a⌋ + 1

/-- Rendering of `snprintf(tmp, 32, "%.4f", val)` (Logger.hpp line 363) on
the exact rational value of the double: sign of the value, integer part,
`.`, and exactly four fraction digits of the magnitude rounded at the
fourth decimal. -/
def formatFixed4 (q : Rat) : String :=
  (if q < 0 then "-" else "") ++
    Nat.repr ((roundHalfEven (|q| * 10000)).toNat / 10000) ++ "." ++
    String.mk (List.replicate
      (4 - (Nat.repr ((roundHalfEven (|q| * 10000)).toNat % 10000)).length) '0') ++
    Nat.repr ((roundHalfEven (|q| * 10000)).toNat % 10000)

/-- Floating-point branch of `operator<<` (Logger.hpp lines 361-365):
`snprintf "%.4f"` into a 32-byte scratch buffer (truncating to 31
characters), then `append`.  The double's value is modelled as the exact
rational it denotes (finite values only). -/
def LogStream.appendFloat (s : LogStream) (q : Rat) : LogStream :=
  s.append ((formatFixed4 q).data.take 31)

/-- Stores performed by a successful `std::to_chars` call: the characters
written one per index starting at `pos`. -/
def writeSeq (s : LogStream) (cs : List Char) (pos : Nat) : LogStream :=
  match cs with
  | [] => s
  | c :: rest => writeSeq (s.writeChar pos c) rest (pos + 1)

/-- Integer branch of `operator<<` (Logger.hpp lines 366-375): guarded by
`offset_ < BUFFER_SIZE - 24`; `std::to_chars` writes the decimal
representation into `[offset_, BUFFER_SIZE)` and succeeds iff it fits
(it always fits for the 64-bit-at-most C++ integer types, which need at
most 20 characters); on success the offset advances and a NUL is stored. -/
def LogStream.appendInt (s : LogStream) (n : Int) : LogStream :=
  if s.offset_ < BUFFER_SIZE - 24 then
    if s.offset_ + (intToChars n).length ≤ BUFFER_SIZE then
      LogStream.writeChar
        { writeSeq s (intToChars n) s.offset_ with
            offset_ := s.offset_ + (intToChars n).length }
        (s.offset_ + (intToChars n).length) '\x00'
    else s
  else s

/-- Model of `operator<<(const char*)` (Logger.hpp lines 382-385): a null
pointer is skipped without being dereferenced. -/
def LogStream.appendCStr (s : LogStream) (v : Option String) : LogStream :=
  match v with
  | none => s
  | some str => s.append str.data

/-- Model of `operator<<(const std::string&)` (Logger.hpp lines 390-393). -/
def LogStream.appendStdString (s : LogStream) (v : String) : LogStream :=
  s.append v.data

/-- Characters produced by `snprintf "%p"` (Logger.hpp lines 398-403) for an
address, glibc style: `0x` plus lowercase hex, `(nil)` for a null pointer. -/
def ptrChars (a : Nat) : List Char :=
  if a = 0 then "(nil)".data
  else '0' :: 'x' :: ((Nat.digits 16 a).reverse).map Nat.digitChar

/-- Pointer branch of `operator<<` (Logger.hpp lines 398-403): render into
the 32-byte scratch buffer (truncating to 31 characters), then `append`. -/
def LogStream.appendPtr (s : LogStream) (a : Nat) : LogStream :=
  s.append ((ptrChars a).take 31)

/-- Manipulator branch of `operator<<` (Logger.hpp lines 412-418): `Endl`
and `Flush` both append exactly the string `"\n"`; `None` does nothing. -/
def LogStream.appendManip (s : LogStream) (m : StdManipulator) : LogStream :=
  match m with
  | .Endl => s.append ['\n']
  | .Flush => s.append ['\n']
  | .None => s

/-- One append operation on a `LogStream`, covering every `operator<<`
overload of the source.  The integer constructor carries the range of the
C++ integral types `to_chars` is instantiated at (at most 64 bits). -/
inductive AppendOp where
  | abool (b : Bool)
  | achar (c : Char)
  | afloat (q : Rat)
  | aint (n : Int) (hn : -(2 ^ 63) ≤ n ∧ n < 2 ^ 64)
  | acstr (v : Option String)
  | astr (v : String)
  | aptr (a : Nat)
  | amanip (m : StdManipulator)

/-- Dispatch of one append operation to the corresponding overload. -/
def LogStream.applyOp (s : LogStream) : AppendOp → LogStream
  | .abool b => s.appendBool b
  | .achar c => s.appendCharVal c
  | .afloat q => s.appendFloat q
  | .aint n _ => s.appendInt n
  | .acstr v => s.appendCStr v
  | .astr v => s.appendStdString v
  | .aptr a => s.appendPtr a
  | .amanip m => s.appendManip m

/-- A chain of append operations applied in order. -/
def LogStream.applyOps (s : LogStream) (ops : List AppendOp) : LogStream :=
  ops.foldl LogStream.applyOp s

/-- The accumulated text of the stream: the buffer characters strictly
before the NUL terminator at `offset_`. -/
def LogStream.contents (s : LogStream) : List Char :=
  s.buffer_.take s.offset_

/-- The accumulated text as a `String`. -/
def LogStream.contentsStr (s : LogStream) : String :=
  String.mk s.contents

/-- Arguments of one hand-off from a `LogStream` to `Logger::log`. -/
structure Handoff where
  level : LogLevel
  message : String
  file : String
  line : Int
deriving DecidableEq, Repr

/-- Model of the destructor `LogStream::~LogStream` (Logger.hpp lines
342-344): its body is the single call
`Logger::getInstance().log(level_, buffer_, file_, line_)`; the second
component lists the hand-offs performed. -/
def LogStream.destruct (env : LogEnv) (lg : LoggerState) (s : LogStream) :
    LogResult × List Handoff :=
  (Logger.log env lg s.level_ s.contentsStr s.file_ s.line_,
   [⟨s.level_, s.contentsStr, s.file_, s.line_⟩])

/-- Safety invariant of the `LogStream` buffer: no out-of-range store ever
happened, the offset stays at most `BUFFER_SIZE - 1`, the buffer never
grows or shrinks, and the cell at `offset_` holds the NUL terminator. -/
def GoodStream (s : LogStream) : Prop :=
  s.oob = false ∧ s.offset_ ≤ BUFFER_SIZE - 1 ∧
    s.buffer_.length = BUFFER_SIZE ∧ s.buffer_.getD s.offset_ 'A' = '\x00'

/-- Weak time-cache invariant of reachable `Logger` states: once the cached
second is nonzero (i.e. `updateTimeStr` has run at least once, for calls at
nonzero wall-clock times), the cached string is its rendering.  It holds in
the boot state vacuously (`lastTime_ = 0`). -/
def ReachTimeInv (fmt : Int → String) (st : LoggerState) : Prop :=
  st.lastTime_ ≠ 0 → st.timeStr_ = fmt st.lastTime_

/-- Concrete environment used by witnesses: fixed clock second 100, fixed
`strftime` renderings, and an `fopen` that always succeeds with handle 7. -/
def wEnv : LogEnv :=
  { now := 100, fmt := fun _ => "1970-01-01 00:01:40",
    dateStr := fun _ => "19700101", fopen := fun _ => some 7 }

/-- Concrete `Logger` state used by witnesses: threshold INFO, console on,
file enabled with an open handle 3 obtained at second 50. -/
def wSt1 : LoggerState :=
  { level_ := .INFO, console_ := true, fileEnabled_ := true,
    baseFilePath_ := "app.log", fileHandle_ := some 3, fileOpenTime_ := 50,
    lastTime_ := 0, timeStr_ := "" }

/-- Concrete `Logger` state in which file logging is enabled but the handle
is null (as left behind by a failed open in `setFile`). -/
def c3St : LoggerState :=
  { level_ := .INFO, console_ := false, fileEnabled_ := true,
    baseFilePath_ := "app.log", fileHandle_ := none, fileOpenTime_ := 0,
    lastTime_ := 0, timeStr_ := "" }

/-- Environment whose `strftime` model renders every second (in particular
second 0) as the nonempty 19-character string `strftime` always produces. -/
def c8Env : LogEnv :=
  { now := 100, fmt := fun _ => "1970-01-01 00:00:00",
    dateStr := fun _ => "19700101", fopen := fun _ => none }

/-! ### Helper lemmas about the Sink Manager model -/

theorem timeStep_level (env : LogEnv) (st : LoggerState) :
    (timeStep env st).1.level_ = st.level_ := by
  unfold timeStep; split <;> rfl

theorem timeStep_console (env : LogEnv) (st : LoggerState) :
    (timeStep env st).1.console_ = st.console_ := by
  unfold timeStep; split <;> rfl

theorem timeStep_fileEnabled (env : LogEnv) (st : LoggerState) :
    (timeStep env st).1.fileEnabled_ = st.fileEnabled_ := by
  unfold timeStep; split <;> rfl

theorem timeStep_fileHandle (env : LogEnv) (st : LoggerState) :
    (timeStep env st).1.fileHandle_ = st.fileHandle_ := by
  unfold timeStep; split <;> rfl

theorem timeStep_fileOpenTime (env : LogEnv) (st : LoggerState) :
    (timeStep env st).1.fileOpenTime_ = st.fileOpenTime_ := by
  unfold timeStep; split <;> rfl

theorem openLogFile_lastTime (env : LogEnv) (st : LoggerState) :
    (openLogFile env st).1.lastTime_ = st.lastTime_ := by
  unfold openLogFile; split <;> rfl

theorem openLogFile_timeStr (env : LogEnv) (st : LoggerState) :
    (openLogFile env st).1.timeStr_ = st.timeStr_ := by
  unfold openLogFile; split <;> rfl

theorem openLogFile_level (env : LogEnv) (st : LoggerState) :
    (openLogFile env st).1.level_ = st.level_ := by
  unfold openLogFile; split <;> rfl

theorem rotateIfStale_lastTime (env : LogEnv) (st : LoggerState) :
    (rotateIfStale env st).1.lastTime_ = st.lastTime_ := by
  unfold rotateIfStale; split
  · exact openLogFile_lastTime env st
  · rfl

theorem rotateIfStale_timeStr (env : LogEnv) (st : LoggerState) :
    (rotateIfStale env st).1.timeStr_ = st.timeStr_ := by
  unfold rotateIfStale; split
  · exact openLogFile_timeStr env st
  · rfl

theorem rotateIfStale_level (env : LogEnv) (st : LoggerState) :
    (rotateIfStale env st).1.level_ = st.level_ := by
  unfold rotateIfStale; split
  · exact openLogFile_level env st
  · rfl

theorem reopenIfClosed_lastTime (env : LogEnv) (st : LoggerState) (opens : List String) :
    (reopenIfClosed env st opens).1.lastTime_ = st.lastTime_ := by
  unfold reopenIfClosed; split
  · exact openLogFile_lastTime env st
  · rfl

theorem reopenIfClosed_timeStr (env : LogEnv) (st : LoggerState) (opens : List String) :
    (reopenIfClosed env st opens).1.timeStr_ = st.timeStr_ := by
  unfold reopenIfClosed; split
  · exact openLogFile_timeStr env st
  · rfl

theorem reopenIfClosed_level (env : LogEnv) (st : LoggerState) (opens : List String) :
    (reopenIfClosed env st opens).1.level_ = st.level_ := by
  unfold reopenIfClosed; split
  · exact openLogFile_level env st
  · rfl

theorem writeIfOpen_state (st : LoggerState) (level : LogLevel) (file : String)
    (line : Int) (message : String) (opens : List String) :
    (writeIfOpen st level file line message opens).1 = st := by
  unfold writeIfOpen; split <;> rfl

theorem fileStep_lastTime (env : LogEnv) (st : LoggerState) (level : LogLevel)
    (file : String) (line : Int) (message : String) :
    (fileStep env st level file line message).1.lastTime_ = st.lastTime_ := by
  unfold fileStep; split
  · rw [writeIfOpen_state, reopenIfClosed_lastTime, rotateIfStale_lastTime]
  · rfl

theorem fileStep_timeStr (env : LogEnv) (st : LoggerState) (level : LogLevel)
    (file : String) (line : Int) (message : String) :
    (fileStep env st level file line message).1.timeStr_ = st.timeStr_ := by
  unfold fileStep; split
  · rw [writeIfOpen_state, reopenIfClosed_timeStr, rotateIfStale_timeStr]
  · rfl

theorem fileStep_level (env : LogEnv) (st : LoggerState) (level : LogLevel)
    (file : String) (line : Int) (message : String) :
    (fileStep env st level file line message).1.level_ = st.level_ := by
  unfold fileStep; split
  · rw [writeIfOpen_state, reopenIfClosed_level, rotateIfStale_level]
  · rfl

theorem hasConsole_append (a b : List OutEvent) :
    hasConsole (a ++ b) = (hasConsole a || hasConsole b) := by
  simp [hasConsole, List.any_append]

theorem hasFile_append (a b : List OutEvent) :
    hasFile (a ++ b) = (hasFile a || hasFile b) := by
  simp [hasFile, List.any_append]

/-! ### Rotation naming (lemmas) -/

theorem lastDotPos_eq_none (cs : List Char) (h : '.' ∉ cs) : lastDotPos cs = none := by
  induction cs with
  | nil => rfl
  | cons c rest ih =>
    have hc : c ≠ '.' := fun hc => h (hc ▸ List.mem_cons_self c rest)
    have hrest : '.' ∉ rest := fun hm => h (List.mem_cons_of_mem c hm)
    unfold lastDotPos
    rw [ih hrest]
    simp [hc]

theorem lastDotPos_append_dot (xs ys : List Char) (h : '.' ∉ ys) :
    lastDotPos (xs ++ '.' :: ys) = some xs.length := by
  induction xs with
  | nil =>
    show lastDotPos ('.' :: ys) = some 0
    unfold lastDotPos
    rw [lastDotPos_eq_none ys h]
    simp
  | cons x xs ih =>
    show lastDotPos (x :: (xs ++ '.' :: ys)) = some (xs.length + 1)
    unfold lastDotPos
    rw [ih]

/-- C9.  `setConsole` is idempotent and modifies only the console flag. -/
theorem c9_setConsole_idempotent (st : LoggerState) (b : Bool) :
    Logger.setConsole (Logger.setConsole st b) b = Logger.setConsole st b
  ∧ (Logger.setConsole st b).console_ = b
  ∧ (Logger.setConsole st b).level_ = st.level_
  ∧ (Logger.setConsole st b).fileEnabled_ = st.fileEnabled_
  ∧ (Logger.setConsole st b).baseFilePath_ = st.baseFilePath_
  ∧ (Logger.setConsole st b).fileHandle_ = st.fileHandle_
  ∧ (Logger.setConsole st b).fileOpenTime_ = st.fileOpenTime_
  ∧ (Logger.setConsole st b).lastTime_ = st.lastTime_
  ∧ (Logger.setConsole st b).timeStr_ = st.timeStr_ :=
  ⟨rfl, rfl, rfl, rfl, rfl, rfl, rfl, rfl, rfl⟩

theorem string_data_append (a b : String) : (a ++ b).data = a.data ++ b.data :=
  rfl

theorem string_eq_of_data (a b : String) (h : a.data = b.data) : a = b := by
  cases a; cases b; exact congrArg String.mk h

/-- C2 (amended).  The rotated path replaces everything from the last `.`
(or appends, when there is no `.`) with the suffix `-YYYYMMDD.log`: an
extensionless base yields `base-D.log`, and a base `stem.ext` with a
dot-free extension yields `stem-D.log`, whatever the original extension. -/
theorem c2_rotated_path (base stem ext d : String)
    (h1 : '.' ∉ base.data) (h2 : '.' ∉ ext.data) :
    rotatedPath base d = base ++ "-" ++ d ++ ".log"
  ∧ rotatedPath (stem ++ "." ++ ext) d = stem ++ "-" ++ d ++ ".log" := by
  constructor
  · unfold rotatedPath
    rw [lastDotPos_eq_none base.data h1]
    simp [String.append_assoc]
  · unfold rotatedPath
    have hdata : (stem ++ "." ++ ext).data = stem.data ++ '.' :: ext.data := by
      rw [string_data_append, string_data_append, List.append_assoc]
      rfl
    rw [hdata, lastDotPos_append_dot stem.data ext.data h2]
    have htake : (stem.data ++ '.' :: ext.data).take stem.data.length = stem.data := by
      simp [List.take_left stem.data ('.' :: ext.data)]
    show String.mk ((stem.data ++ '.' :: ext.data).take stem.data.length) ++
        ("-" ++ d ++ ".log") = stem ++ "-" ++ d ++ ".log"
    rw [htake]
    apply string_eq_of_data
    simp [string_data_append, List.append_assoc]

/-- C2 (counterexample).  The original extension is not preserved: base
path `data.txt` yields `data-20260218.log`, not `data-20260218.txt`, and an
extensionless base still receives the `.log` extension. -/
theorem c2_rotated_path_counterexample :
    rotatedPath "data.txt" "20260218" = "data-20260218.log"
  ∧ rotatedPath "data.txt" "20260218" ≠ "data-20260218.txt"
  ∧ rotatedPath "base" "20260218" = "base-20260218.log" := by
  refine ⟨by decide, by decide, by decide⟩

/-- C2 (witness).  The amended rule evaluated at the spec's own examples. -/
theorem c2_rotated_path_witness :
    ('.' ∉ "base".data ∧ '.' ∉ "log".data)
  ∧ (rotatedPath "base" "20260218" = "base" ++ "-" ++ "20260218" ++ ".log"
  ∧ rotatedPath ("app" ++ "." ++ "log") "20260218" = "app" ++ "-" ++ "20260218" ++ ".log") :=
  ⟨⟨by decide, by decide⟩,
   c2_rotated_path "base" "app" "log" "20260218" (by decide) (by decide)⟩

/-- C3 (code evaluation at the failing input).  With file logging enabled
but a null handle at entry to `log` (as left by a failed open in
`setFile`), and an `fopen` that would succeed on every path, a
filter-passing `log` call attempts no re-open (`opens = []`), performs no
file write, and leaves the handle null — contradicting the claimed re-open
on the next `log` call.  The cause is the guard
`if (fileEnabled_ && fileHandle_)` at Logger.hpp line 199, which skips the
whole file branch (including the reopen of lines 206-208) when the handle
is already null. -/
theorem c3_no_reopen_when_handle_null :
    c3St.fileEnabled_ = true
  ∧ c3St.fileHandle_ = none
  ∧ (∀ p, wEnv.fopen p = some 7)
  ∧ LogLevel.toNat c3St.level_ ≤ LogLevel.toNat .ERROR
  ∧ (Logger.log wEnv c3St .ERROR "m" "f.cpp" 7).opens = []
  ∧ hasFile (Logger.log wEnv c3St .ERROR "m" "f.cpp" 7).events = false
  ∧ (Logger.log wEnv c3St .ERROR "m" "f.cpp" 7).state.fileHandle_ = none :=
  ⟨rfl, rfl, fun _ => rfl, by decide, by decide, by decide, by decide⟩

theorem fileStep_write (env : LogEnv) (st : LoggerState) (level : LogLevel)
    (file : String) (line : Int) (message : String) (h0 : Nat)
    (hen : st.fileEnabled_ = true) (hh : st.fileHandle_ = some h0)
    (hrot : ¬env.now - st.fileOpenTime_ > 60 * 60 * 24) :
    fileStep env st level file line message =
      (st, [.fileLine h0 (fileRender st.timeStr_ level file line message)], []) := by
  have hg : (st.fileEnabled_ && st.fileHandle_.isSome) = true := by
    rw [hen, hh]; rfl
  have hrs : rotateIfStale env st = (st, []) := by
    unfold rotateIfStale; rw [if_neg hrot]
  have hrc : reopenIfClosed env st [] = (st, []) := by
    unfold reopenIfClosed; simp [hh]
  unfold fileStep
  rw [if_pos hg, hrs, hrc]
  unfold writeIfOpen
  rw [hh]

/-- C1.  A record passed to `log` at severity `S` is written to the enabled
channels iff `S >= T`: when `S < T` the call returns immediately with the
state untouched, nothing formatted and no I/O; otherwise an enabled console
receives a line, and an enabled, operational file channel (open handle not
older than 24 hours) receives a line. -/
theorem c1_severity_filter (env : LogEnv) (st : LoggerState) (level : LogLevel)
    (msg file : String) (line : Int) :
    (level.toNat < st.level_.toNat →
      Logger.log env st level msg file line = ⟨st, [], false, []⟩)
  ∧ (st.console_ = true →
      (hasConsole (Logger.log env st level msg file line).events = true ↔
        st.level_.toNat ≤ level.toNat))
  ∧ (∀ h0 : Nat, st.fileEnabled_ = true → st.fileHandle_ = some h0 →
      env.now - st.fileOpenTime_ ≤ 60 * 60 * 24 →
      (hasFile (Logger.log env st level msg file line).events = true ↔
        st.level_.toNat ≤ level.toNat)) := by
  refine ⟨?_, ?_, ?_⟩
  · intro h
    unfold Logger.log
    rw [if_pos h]
  · intro hc
    by_cases h : level.toNat < st.level_.toNat
    · constructor
      · intro habs
        unfold Logger.log at habs
        rw [if_pos h] at habs
        simp [hasConsole] at habs
      · intro hle
        omega
    · have hle : st.level_.toNat ≤ level.toNat := Nat.le_of_not_lt h
      unfold Logger.log
      rw [if_neg h]
      have hcs : consoleStep (timeStep env st).1 level file line msg =
          [.consoleLine (consoleRender (timeStep env st).1.timeStr_ level file line msg)] := by
        unfold consoleStep
        rw [timeStep_console, hc]
        simp
      simp only [hcs, hasConsole_append]
      simp [hasConsole, hle]
  · intro h0 hen hh hle24
    by_cases h : level.toNat < st.level_.toNat
    · constructor
      · intro habs
        unfold Logger.log at habs
        rw [if_pos h] at habs
        simp [hasFile] at habs
      · intro hle
        omega
    · have hle : st.level_.toNat ≤ level.toNat := Nat.le_of_not_lt h
      unfold Logger.log
      rw [if_neg h]
      have h1 : (timeStep env st).1.fileEnabled_ = true := by
        rw [timeStep_fileEnabled, hen]
      have h2 : (timeStep env st).1.fileHandle_ = some h0 := by
        rw [timeStep_fileHandle, hh]
      have h3 : ¬env.now - (timeStep env st).1.fileOpenTime_ > 60 * 60 * 24 := by
        rw [timeStep_fileOpenTime]
        omega
      rw [fileStep_write env (timeStep env st).1 level file line msg h0 h1 h2 h3]
      simp [hasFile_append, hasFile, hle]

/-- C1 (witness).  The filter theorem evaluated in the concrete state
`wSt1` (threshold INFO, console on, file open with handle 3): a DEBUG call
is dropped with no work; a WARNING call reaches both channels. -/
theorem c1_severity_filter_witness :
    (LogLevel.toNat .DEBUG < wSt1.level_.toNat
      ∧ Logger.log wEnv wSt1 .DEBUG "m" "f.cpp" 7 = ⟨wSt1, [], false, []⟩)
  ∧ (wSt1.console_ = true
      ∧ (hasConsole (Logger.log wEnv wSt1 .WARNING "m" "f.cpp" 7).events = true ↔
          wSt1.level_.toNat ≤ LogLevel.toNat .WARNING))
  ∧ (wSt1.fileEnabled_ = true ∧ wSt1.fileHandle_ = some 3
      ∧ wEnv.now - wSt1.fileOpenTime_ ≤ 60 * 60 * 24
      ∧ (hasFile (Logger.log wEnv wSt1 .WARNING "m" "f.cpp" 7).events = true ↔
          wSt1.level_.toNat ≤ LogLevel.toNat .WARNING)) :=
  ⟨⟨by decide, (c1_severity_filter wEnv wSt1 .DEBUG "m" "f.cpp" 7).1 (by decide)⟩,
   ⟨rfl, (c1_severity_filter wEnv wSt1 .WARNING "m" "f.cpp" 7).2.1 rfl⟩,
   ⟨rfl, rfl, by decide,
    (c1_severity_filter wEnv wSt1 .WARNING "m" "f.cpp" 7).2.2 3 rfl rfl (by decide)⟩⟩

/-! ### Helper lemmas about the Log Builder model -/

theorem list_take_set_eq (l : List Char) (i : Nat) (c : Char) :
    (l.set i c).take i = l.take i := by
  induction l generalizing i with
  | nil => rfl
  | cons x xs ih =>
    cases i with
    | zero => rfl
    | succ j =>
      show x :: (xs.set j c).take j = x :: xs.take j
      rw [ih j]

theorem list_take_succ_set (l : List Char) (i : Nat) (c : Char) (h : i < l.length) :
    (l.set i c).take (i + 1) = l.take i ++ [c] := by
  induction l generalizing i with
  | nil => simp at h
  | cons x xs ih =>
    cases i with
    | zero => rfl
    | succ j =>
      show x :: (xs.set j c).take (j + 1) = x :: (xs.take j ++ [c])
      rw [ih j (by simpa using h)]

theorem list_getD_set_self (l : List Char) (i : Nat) (c : Char) (h : i < l.length) :
    (l.set i c).getD i 'A' = c := by
  induction l generalizing i with
  | nil => simp at h
  | cons x xs ih =>
    cases i with
    | zero => rfl
    | succ j => exact ih j (by simpa using h)

theorem list_getD_replicate (n i : Nat) (c : Char) (h : i < n) :
    (List.replicate n c).getD i 'A' = c := by
  induction n generalizing i with
  | zero => omega
  | succ m ih =>
    cases i with
    | zero => rfl
    | succ j => exact ih j (by omega)

theorem writeChar_level (s : LogStream) (i : Nat) (c : Char) :
    (s.writeChar i c).level_ = s.level_ := by
  unfold LogStream.writeChar; split <;> rfl

theorem writeChar_file (s : LogStream) (i : Nat) (c : Char) :
    (s.writeChar i c).file_ = s.file_ := by
  unfold LogStream.writeChar; split <;> rfl

theorem writeChar_line (s : LogStream) (i : Nat) (c : Char) :
    (s.writeChar i c).line_ = s.line_ := by
  unfold LogStream.writeChar; split <;> rfl

theorem writeChar_offset (s : LogStream) (i : Nat) (c : Char) :
    (s.writeChar i c).offset_ = s.offset_ := by
  unfold LogStream.writeChar; split <;> rfl

theorem writeChar_length (s : LogStream) (i : Nat) (c : Char) :
    (s.writeChar i c).buffer_.length = s.buffer_.length := by
  unfold LogStream.writeChar; split <;> simp

theorem writeChar_in_range (s : LogStream) (i : Nat) (c : Char)
    (h : i < s.buffer_.length) :
    s.writeChar i c = { s with buffer_ := s.buffer_.set i c } := by
  unfold LogStream.writeChar
  rw [if_pos h]

theorem writeChar_oob_flag (s : LogStream) (i : Nat) (c : Char)
    (h : i < s.buffer_.length) :
    (s.writeChar i c).oob = s.oob := by
  rw [writeChar_in_range s i c h]

theorem copyLoop_meta (cs : List Char) (s : LogStream) (pos : Nat) :
    (copyLoop s cs pos).1.level_ = s.level_
  ∧ (copyLoop s cs pos).1.file_ = s.file_
  ∧ (copyLoop s cs pos).1.line_ = s.line_
  ∧ (copyLoop s cs pos).1.offset_ = s.offset_ := by
  induction cs generalizing s pos with
  | nil => exact ⟨rfl, rfl, rfl, rfl⟩
  | cons c rest ih =>
    unfold copyLoop
    split
    · have h := ih (s.writeChar pos c) (pos + 1)
      rw [writeChar_level, writeChar_file, writeChar_line, writeChar_offset] at h
      exact h
    · exact ⟨rfl, rfl, rfl, rfl⟩

theorem copyLoop_safe (cs : List Char) (s : LogStream) (pos : Nat)
    (hB : s.buffer_.length = BUFFER_SIZE) (hpos : pos ≤ BUFFER_SIZE - 1) :
    (copyLoop s cs pos).1.buffer_.length = BUFFER_SIZE
  ∧ (copyLoop s cs pos).1.oob = s.oob
  ∧ (copyLoop s cs pos).2 ≤ BUFFER_SIZE - 1 := by
  induction cs generalizing s pos with
  | nil => exact ⟨hB, rfl, hpos⟩
  | cons c rest ih =>
    unfold copyLoop
    split
    · rename_i hlt
      have hin : pos < s.buffer_.length := by
        rw [hB]; unfold BUFFER_SIZE at *; omega
      have hB' : (s.writeChar pos c).buffer_.length = BUFFER_SIZE := by
        rw [writeChar_length, hB]
      have h := ih (s.writeChar pos c) (pos + 1) hB'
        (by unfold BUFFER_SIZE at *; omega)
      rw [writeChar_oob_flag s pos c hin] at h
      exact h
    · exact ⟨hB, rfl, hpos⟩

theorem copyLoop_full (cs : List Char) (s : LogStream) (pos : Nat)
    (h : pos + cs.length ≤ BUFFER_SIZE - 1) :
    copyLoop s cs pos = (writeSeq s cs pos, pos + cs.length) := by
  induction cs generalizing s pos with
  | nil => rfl
  | cons c rest ih =>
    unfold copyLoop writeSeq
    have hlt : pos < BUFFER_SIZE - 1 := by
      simp only [List.length_cons] at h; omega
    rw [if_pos hlt, ih (s.writeChar pos c) (pos + 1)
      (by simp only [List.length_cons] at h; omega)]
    have : pos + (rest.length + 1) = pos + 1 + rest.length := by omega
    simp [this]

theorem writeSeq_meta (cs : List Char) (s : LogStream) (pos : Nat) :
    (writeSeq s cs pos).level_ = s.level_
  ∧ (writeSeq s cs pos).file_ = s.file_
  ∧ (writeSeq s cs pos).line_ = s.line_
  ∧ (writeSeq s cs pos).offset_ = s.offset_ := by
  induction cs generalizing s pos with
  | nil => exact ⟨rfl, rfl, rfl, rfl⟩
  | cons c rest ih =>
    unfold writeSeq
    have h := ih (s.writeChar pos c) (pos + 1)
    rw [writeChar_level, writeChar_file, writeChar_line, writeChar_offset] at h
    exact h

theorem writeSeq_length (cs : List Char) (s : LogStream) (pos : Nat) :
    (writeSeq s cs pos).buffer_.length = s.buffer_.length := by
  induction cs generalizing s pos with
  | nil => rfl
  | cons c rest ih =>
    unfold writeSeq
    rw [ih (s.writeChar pos c) (pos + 1), writeChar_length]

theorem writeSeq_oob (cs : List Char) (s : LogStream) (pos : Nat)
    (h : pos + cs.length ≤ s.buffer_.length) :
    (writeSeq s cs pos).oob = s.oob := by
  induction cs generalizing s pos with
  | nil => rfl
  | cons c rest ih =>
    unfold writeSeq
    have hin : pos < s.buffer_.length := by
      simp only [List.length_cons] at h; omega
    have h' : pos + 1 + rest.length ≤ (s.writeChar pos c).buffer_.length := by
      rw [writeChar_length]
      simp only [List.length_cons] at h; omega
    rw [ih (s.writeChar pos c) (pos + 1) h', writeChar_oob_flag s pos c hin]

theorem writeSeq_take (cs : List Char) (s : LogStream) (pos : Nat)
    (h : pos + cs.length ≤ s.buffer_.length) :
    (writeSeq s cs pos).buffer_.take (pos + cs.length) =
      s.buffer_.take pos ++ cs := by
  induction cs generalizing s pos with
  | nil =>
    unfold writeSeq
    simp
  | cons c rest ih =>
    unfold writeSeq
    have hin : pos < s.buffer_.length := by
      simp only [List.length_cons] at h; omega
    have h' : pos + 1 + rest.length ≤ (s.writeChar pos c).buffer_.length := by
      rw [writeChar_length]
      simp only [List.length_cons] at h; omega
    have harith : pos + (rest.length + 1) = pos + 1 + rest.length := by omega
    simp only [List.length_cons, harith]
    rw [ih (s.writeChar pos c) (pos + 1) h']
    rw [writeChar_in_range s pos c hin]
    show (s.buffer_.set pos c).take (pos + 1) ++ rest = s.buffer_.take pos ++ c :: rest
    rw [list_take_succ_set s.buffer_ pos c hin]
    simp

theorem append_meta (s : LogStream) (cs : List Char) :
    (s.append cs).level_ = s.level_
  ∧ (s.append cs).file_ = s.file_
  ∧ (s.append cs).line_ = s.line_ := by
  unfold LogStream.append
  have h := copyLoop_meta cs s s.offset_
  rw [writeChar_level, writeChar_file, writeChar_line]
  exact ⟨h.1, h.2.1, h.2.2.1⟩

theorem append_def (s : LogStream) (cs : List Char) :
    s.append cs =
      ({ (copyLoop s cs s.offset_).1 with
          offset_ := (copyLoop s cs s.offset_).2 } : LogStream).writeChar
        (copyLoop s cs s.offset_).2 '\x00' :=
  rfl

theorem append_safe (s : LogStream) (cs : List Char)
    (hB : s.buffer_.length = BUFFER_SIZE) (hoff : s.offset_ ≤ BUFFER_SIZE - 1) :
    (s.append cs).oob = s.oob
  ∧ (s.append cs).offset_ ≤ BUFFER_SIZE - 1
  ∧ (s.append cs).buffer_.length = BUFFER_SIZE
  ∧ (s.append cs).buffer_.getD (s.append cs).offset_ 'A' = '\x00' := by
  have h := copyLoop_safe cs s s.offset_ hB hoff
  have hin : (copyLoop s cs s.offset_).2 <
      ({ (copyLoop s cs s.offset_).1 with
          offset_ := (copyLoop s cs s.offset_).2 } : LogStream).buffer_.length := by
    show (copyLoop s cs s.offset_).2 < (copyLoop s cs s.offset_).1.buffer_.length
    rw [h.1]
    unfold BUFFER_SIZE at *
    omega
  rw [append_def, writeChar_in_range _ _ _ hin]
  refine ⟨h.2.1, h.2.2, ?_, ?_⟩
  · show ((copyLoop s cs s.offset_).1.buffer_.set (copyLoop s cs s.offset_).2 '\x00').length
        = BUFFER_SIZE
    rw [List.length_set]
    exact h.1
  · exact list_getD_set_self _ _ _ hin

theorem append_contents (s : LogStream) (cs : List Char)
    (hB : s.buffer_.length = BUFFER_SIZE)
    (h : s.offset_ + cs.length ≤ BUFFER_SIZE - 1) :
    (s.append cs).contents = s.contents ++ cs
  ∧ (s.append cs).offset_ = s.offset_ + cs.length := by
  have hfull := copyLoop_full cs s s.offset_ h
  have hlen : (writeSeq s cs s.offset_).buffer_.length = BUFFER_SIZE := by
    rw [writeSeq_length, hB]
  rw [append_def, hfull]
  have hin : s.offset_ + cs.length <
      ({ writeSeq s cs s.offset_ with
          offset_ := s.offset_ + cs.length } : LogStream).buffer_.length := by
    show s.offset_ + cs.length < (writeSeq s cs s.offset_).buffer_.length
    rw [hlen]
    unfold BUFFER_SIZE at *
    omega
  rw [writeChar_in_range _ _ _ hin]
  constructor
  · show ((writeSeq s cs s.offset_).buffer_.set (s.offset_ + cs.length) '\x00').take
        (s.offset_ + cs.length) = s.buffer_.take s.offset_ ++ cs
    rw [list_take_set_eq]
    exact writeSeq_take cs s s.offset_ (by rw [hB]; unfold BUFFER_SIZE at *; omega)
  · rfl

theorem digits_length_le (m k : Nat) (h : m < 10 ^ k) :
    (Nat.digits 10 m).length ≤ k := by
  rcases Nat.eq_zero_or_pos m with hm | hm
  · subst hm; simp
  · have hm' : m ≠ 0 := Nat.pos_iff_ne_zero.mp hm
    rw [Nat.digits_len 10 m (by norm_num) hm']
    have := Nat.log_lt_of_lt_pow hm' h
    omega

theorem natDigitChars_length (m : Nat) :
    (natDigitChars m).length = (Nat.digits 10 m).length := by
  simp [natDigitChars]

theorem intToChars_length_le (n : Int)
    (hn : -(2 ^ 63) ≤ n ∧ n < 2 ^ 64) : (intToChars n).length ≤ 20 := by
  unfold intToChars
  split
  · simp
  · split
    · rename_i h0 hneg
      have habs : (-n).toNat ≤ 2 ^ 63 := by omega
      have : ((-n).toNat) < 10 ^ 19 := by
        have : (2 : Nat) ^ 63 < 10 ^ 19 := by norm_num
        omega
      have hlen := digits_length_le (-n).toNat 19 this
      simp only [List.length_cons, natDigitChars_length]
      omega
    · rename_i h0 hneg
      have habs : n.toNat < 2 ^ 64 := by omega
      have : n.toNat < 10 ^ 20 := by
        have : (2 : Nat) ^ 64 < 10 ^ 20 := by norm_num
        omega
      have hlen := digits_length_le n.toNat 20 this
      rw [natDigitChars_length]
      omega

theorem appendCharVal_meta (s : LogStream) (c : Char) :
    (s.appendCharVal c).level_ = s.level_
  ∧ (s.appendCharVal c).file_ = s.file_
  ∧ (s.appendCharVal c).line_ = s.line_ := by
  unfold LogStream.appendCharVal
  split
  · rw [writeChar_level, writeChar_file, writeChar_line]
    exact ⟨writeChar_level s s.offset_ c, writeChar_file s s.offset_ c,
      writeChar_line s s.offset_ c⟩
  · exact ⟨rfl, rfl, rfl⟩

theorem appendCharVal_good (s : LogStream) (c : Char) (hg : GoodStream s) :
    GoodStream (s.appendCharVal c) := by
  obtain ⟨ho, hoff, hB, hnul⟩ := hg
  unfold LogStream.appendCharVal
  split
  · rename_i h
    have hin1 : s.offset_ < s.buffer_.length := by
      rw [hB]; unfold BUFFER_SIZE at *; omega
    have hu_len : (s.writeChar s.offset_ c).buffer_.length = BUFFER_SIZE := by
      rw [writeChar_length, hB]
    have hu_oob : (s.writeChar s.offset_ c).oob = false := by
      rw [writeChar_oob_flag s s.offset_ c hin1, ho]
    have hin2 : s.offset_ + 1 <
        ({ s.writeChar s.offset_ c with offset_ := s.offset_ + 1 } : LogStream).buffer_.length := by
      show s.offset_ + 1 < (s.writeChar s.offset_ c).buffer_.length
      rw [hu_len]; unfold BUFFER_SIZE at *; omega
    refine ⟨?_, ?_, ?_, ?_⟩
    · rw [writeChar_oob_flag _ _ _ hin2]
      exact hu_oob
    · rw [writeChar_offset]
      show s.offset_ + 1 ≤ BUFFER_SIZE - 1
      unfold BUFFER_SIZE at *; omega
    · rw [writeChar_length]
      exact hu_len
    · rw [writeChar_in_range _ _ _ hin2]
      exact list_getD_set_self _ _ _ hin2
  · exact ⟨ho, hoff, hB, hnul⟩

theorem appendInt_meta (s : LogStream) (n : Int) :
    (s.appendInt n).level_ = s.level_
  ∧ (s.appendInt n).file_ = s.file_
  ∧ (s.appendInt n).line_ = s.line_ := by
  unfold LogStream.appendInt
  split
  · split
    · rw [writeChar_level, writeChar_file, writeChar_line]
      have h := writeSeq_meta (intToChars n) s s.offset_
      exact ⟨h.1, h.2.1, h.2.2.1⟩
    · exact ⟨rfl, rfl, rfl⟩
  · exact ⟨rfl, rfl, rfl⟩

theorem appendInt_good (s : LogStream) (n : Int)
    (hn : -(2 ^ 63) ≤ n ∧ n < 2 ^ 64) (hg : GoodStream s) :
    GoodStream (s.appendInt n) := by
  obtain ⟨ho, hoff, hB, hnul⟩ := hg
  unfold LogStream.appendInt
  split
  · rename_i hguard
    have hlen20 := intToChars_length_le n hn
    split
    · rename_i hfit
      have hseq_len : (writeSeq s (intToChars n) s.offset_).buffer_.length = BUFFER_SIZE := by
        rw [writeSeq_length, hB]
      have hran : s.offset_ + (intToChars n).length ≤ s.buffer_.length := by
        rw [hB]; unfold BUFFER_SIZE at *; omega
      have hin : s.offset_ + (intToChars n).length <
          ({ writeSeq s (intToChars n) s.offset_ with
              offset_ := s.offset_ + (intToChars n).length } : LogStream).buffer_.length := by
        show s.offset_ + (intToChars n).length <
          (writeSeq s (intToChars n) s.offset_).buffer_.length
        rw [hseq_len]; unfold BUFFER_SIZE at *; omega
      refine ⟨?_, ?_, ?_, ?_⟩
      · rw [writeChar_oob_flag _ _ _ hin]
        show (writeSeq s (intToChars n) s.offset_).oob = false
        rw [writeSeq_oob _ _ _ hran, ho]
      · rw [writeChar_offset]
        show s.offset_ + (intToChars n).length ≤ BUFFER_SIZE - 1
        unfold BUFFER_SIZE at *; omega
      · rw [writeChar_length]
        exact hseq_len
      · rw [writeChar_in_range _ _ _ hin]
        exact list_getD_set_self _ _ _ hin
    · exact ⟨ho, hoff, hB, hnul⟩
  · exact ⟨ho, hoff, hB, hnul⟩

theorem appendInt_skip (s : LogStream) (n : Int)
    (h : ¬s.offset_ < BUFFER_SIZE - 24) : s.appendInt n = s := by
  unfold LogStream.appendInt
  rw [if_neg h]

theorem appendInt_contents (s : LogStream) (n : Int)
    (hn : -(2 ^ 63) ≤ n ∧ n < 2 ^ 64)
    (hB : s.buffer_.length = BUFFER_SIZE)
    (hguard : s.offset_ < BUFFER_SIZE - 24) :
    (s.appendInt n).contents = s.contents ++ intToChars n
  ∧ (s.appendInt n).offset_ = s.offset_ + (intToChars n).length := by
  have hlen20 := intToChars_length_le n hn
  have hfit : s.offset_ + (intToChars n).length ≤ BUFFER_SIZE := by
    unfold BUFFER_SIZE at *; omega
  have hseq_len : (writeSeq s (intToChars n) s.offset_).buffer_.length = BUFFER_SIZE := by
    rw [writeSeq_length, hB]
  have hran : s.offset_ + (intToChars n).length ≤ s.buffer_.length := by
    rw [hB]; unfold BUFFER_SIZE at *; omega
  have hin : s.offset_ + (intToChars n).length <
      ({ writeSeq s (intToChars n) s.offset_ with
          offset_ := s.offset_ + (intToChars n).length } : LogStream).buffer_.length := by
    show s.offset_ + (intToChars n).length <
      (writeSeq s (intToChars n) s.offset_).buffer_.length
    rw [hseq_len]; unfold BUFFER_SIZE at *; omega
  unfold LogStream.appendInt
  rw [if_pos hguard, if_pos hfit, writeChar_in_range _ _ _ hin]
  constructor
  · show ((writeSeq s (intToChars n) s.offset_).buffer_.set
        (s.offset_ + (intToChars n).length) '\x00').take
        (s.offset_ + (intToChars n).length) = s.buffer_.take s.offset_ ++ intToChars n
    rw [list_take_set_eq]
    exact writeSeq_take (intToChars n) s s.offset_ hran
  · rfl

theorem append_good (s : LogStream) (cs : List Char) (hg : GoodStream s) :
    GoodStream (s.append cs) := by
  obtain ⟨ho, hoff, hB, hnul⟩ := hg
  have h := append_safe s cs hB hoff
  exact ⟨by rw [h.1, ho], h.2.1, h.2.2.1, h.2.2.2⟩

theorem applyOp_meta (s : LogStream) (op : AppendOp) :
    (s.applyOp op).level_ = s.level_
  ∧ (s.applyOp op).file_ = s.file_
  ∧ (s.applyOp op).line_ = s.line_ := by
  cases op with
  | abool b => exact append_meta s _
  | achar c => exact appendCharVal_meta s c
  | afloat q => exact append_meta s _
  | aint n hn => exact appendInt_meta s n
  | acstr v =>
    cases v with
    | none => exact ⟨rfl, rfl, rfl⟩
    | some str => exact append_meta s _
  | astr v => exact append_meta s _
  | aptr a => exact append_meta s _
  | amanip m =>
    cases m with
    | Endl => exact append_meta s _
    | Flush => exact append_meta s _
    | None => exact ⟨rfl, rfl, rfl⟩

theorem applyOp_good (s : LogStream) (op : AppendOp) (hg : GoodStream s) :
    GoodStream (s.applyOp op) := by
  cases op with
  | abool b => exact append_good s _ hg
  | achar c => exact appendCharVal_good s c hg
  | afloat q => exact append_good s _ hg
  | aint n hn => exact appendInt_good s n hn hg
  | acstr v =>
    cases v with
    | none => exact hg
    | some str => exact append_good s _ hg
  | astr v => exact append_good s _ hg
  | aptr a => exact append_good s _ hg
  | amanip m =>
    cases m with
    | Endl => exact append_good s _ hg
    | Flush => exact append_good s _ hg
    | None => exact hg

theorem applyOps_meta (ops : List AppendOp) (s : LogStream) :
    (s.applyOps ops).level_ = s.level_
  ∧ (s.applyOps ops).file_ = s.file_
  ∧ (s.applyOps ops).line_ = s.line_ := by
  induction ops generalizing s with
  | nil => exact ⟨rfl, rfl, rfl⟩
  | cons op rest ih =>
    have h1 := applyOp_meta s op
    have h2 := ih (s.applyOp op)
    exact ⟨h2.1.trans h1.1, h2.2.1.trans h1.2.1, h2.2.2.trans h1.2.2⟩

theorem applyOps_good (ops : List AppendOp) (s : LogStream) (hg : GoodStream s) :
    GoodStream (s.applyOps ops) := by
  induction ops generalizing s with
  | nil => exact hg
  | cons op rest ih => exact ih (s.applyOp op) (applyOp_good s op hg)

theorem create_good (level : LogLevel) (file : String) (line : Int) :
    GoodStream (LogStream.create level file line) := by
  refine ⟨rfl, ?_, ?_, ?_⟩
  · show 0 ≤ BUFFER_SIZE - 1
    exact Nat.zero_le _
  · exact List.length_replicate BUFFER_SIZE '\x00'
  · exact list_getD_replicate BUFFER_SIZE 0 '\x00' (by unfold BUFFER_SIZE; omega)

/-- C6.  For every sequence of append operations started on a fresh
`LogStream`, all stores stay inside the fixed 4096-byte buffer (the ghost
out-of-bounds flag stays false), the write offset satisfies
`offset_ ≤ BUFFER_SIZE - 1`, the cell at `offset_` holds the NUL
terminator, and the buffer never grows: overlong content is dropped, not
an error. -/
theorem c6_buffer_safety (level : LogLevel) (file : String) (line : Int)
    (ops : List AppendOp) :
    GoodStream ((LogStream.create level file line).applyOps ops) :=
  applyOps_good ops (LogStream.create level file line)
    (create_good level file line)

/-- C4.  The `LogStream` destructor performs exactly one hand-off to
`Logger::log`, carrying the accumulated buffer text together with the
severity and call-site file and line bound at construction — whatever
append operations ran in between, including none at all (the hand-off then
carries the empty string). -/
theorem c4_single_handoff (env : LogEnv) (lg : LoggerState) (level : LogLevel)
    (file : String) (line : Int) (ops : List AppendOp) :
    (LogStream.destruct env lg ((LogStream.create level file line).applyOps ops)).2
      = [⟨level, ((LogStream.create level file line).applyOps ops).contentsStr, file, line⟩]
  ∧ (LogStream.destruct env lg ((LogStream.create level file line).applyOps ops)).2.length = 1
  ∧ (LogStream.create level file line).contentsStr = ""
  ∧ (LogStream.destruct env lg ((LogStream.create level file line).applyOps ops)).1
      = Logger.log env lg level
          ((LogStream.create level file line).applyOps ops).contentsStr file line := by
  have hm := applyOps_meta ops (LogStream.create level file line)
  have hl : ((LogStream.create level file line).applyOps ops).level_ = level := hm.1
  have hf : ((LogStream.create level file line).applyOps ops).file_ = file := hm.2.1
  have hn : ((LogStream.create level file line).applyOps ops).line_ = line := hm.2.2
  refine ⟨?_, rfl, rfl, ?_⟩
  · unfold LogStream.destruct
    rw [hl, hf, hn]
  · unfold LogStream.destruct
    rw [hl, hf, hn]

theorem formatFixed4_neg_five_halves : formatFixed4 (-(5 / 2 : Rat)) = "-2.5000" := by
  have hq : (-(5 / 2 : Rat)) < 0 := by norm_num
  have habs : |(-(5 / 2 : Rat))| * 10000 = (25000 : Rat) := by
    rw [abs_of_neg hq]; norm_num
  have hrhe : roundHalfEven (25000 : Rat) = 25000 := by
    unfold roundHalfEven
    norm_num
  unfold formatFixed4
  rw [habs, hrhe, if_pos hq]
  rfl

/-- C5.  Append conversions are exact: the floating-point value `-2.5`
contributes exactly the text `-2.5000` (`%.4f`), `true`/`false` contribute
`true`/`false`, a null `const char*` contributes nothing (and the state is
untouched), and the end-of-line and flush manipulators contribute exactly
one `\n` character. -/
theorem c5_append_exactness (s : LogStream)
    (hB : s.buffer_.length = BUFFER_SIZE)
    (h7 : s.offset_ + 7 ≤ BUFFER_SIZE - 1) :
    (s.appendFloat (-(5 / 2 : Rat))).contents = s.contents ++ "-2.5000".data
  ∧ (s.appendBool true).contents = s.contents ++ "true".data
  ∧ (s.appendBool false).contents = s.contents ++ "false".data
  ∧ s.appendCStr none = s
  ∧ (s.appendManip .Endl).contents = s.contents ++ ['\n']
  ∧ (s.appendManip .Endl).offset_ = s.offset_ + 1
  ∧ (s.appendManip .Flush).contents = s.contents ++ ['\n'] := by
  refine ⟨?_, ?_, ?_, rfl, ?_, ?_, ?_⟩
  · unfold LogStream.appendFloat
    rw [formatFixed4_neg_five_halves]
    have ht : ("-2.5000" : String).data.take 31 = "-2.5000".data := rfl
    rw [ht]
    refine (append_contents s _ hB ?_).1
    have hl : (("-2.5000" : String).data).length = 7 := rfl
    omega
  · unfold LogStream.appendBool
    refine (append_contents s _ hB ?_).1
    have hl : ((if true = true then "true".data else "false".data) : List Char).length = 4 := rfl
    omega
  · unfold LogStream.appendBool
    refine (append_contents s _ hB ?_).1
    have hl : ((if false = true then "true".data else "false".data) : List Char).length = 5 := rfl
    omega
  · unfold LogStream.appendManip
    refine (append_contents s ['\n'] hB ?_).1
    have hl : (['\n'] : List Char).length = 1 := rfl
    omega
  · unfold LogStream.appendManip
    refine (append_contents s ['\n'] hB ?_).2
    have hl : (['\n'] : List Char).length = 1 := rfl
    omega
  · unfold LogStream.appendManip
    refine (append_contents s ['\n'] hB ?_).1
    have hl : (['\n'] : List Char).length = 1 := rfl
    omega

/-- C5 (witness).  The conversion exactness evaluated on a fresh stream. -/
theorem c5_append_exactness_witness :
    ((LogStream.create .INFO "f.cpp" 3).buffer_.length = BUFFER_SIZE
      ∧ (LogStream.create .INFO "f.cpp" 3).offset_ + 7 ≤ BUFFER_SIZE - 1)
  ∧ (((LogStream.create .INFO "f.cpp" 3).appendFloat (-(5 / 2 : Rat))).contents
        = (LogStream.create .INFO "f.cpp" 3).contents ++ "-2.5000".data
    ∧ ((LogStream.create .INFO "f.cpp" 3).appendBool true).contents
        = (LogStream.create .INFO "f.cpp" 3).contents ++ "true".data
    ∧ ((LogStream.create .INFO "f.cpp" 3).appendBool false).contents
        = (LogStream.create .INFO "f.cpp" 3).contents ++ "false".data
    ∧ (LogStream.create .INFO "f.cpp" 3).appendCStr none
        = LogStream.create .INFO "f.cpp" 3
    ∧ ((LogStream.create .INFO "f.cpp" 3).appendManip .Endl).contents
        = (LogStream.create .INFO "f.cpp" 3).contents ++ ['\n']
    ∧ ((LogStream.create .INFO "f.cpp" 3).appendManip .Endl).offset_
        = (LogStream.create .INFO "f.cpp" 3).offset_ + 1
    ∧ ((LogStream.create .INFO "f.cpp" 3).appendManip .Flush).contents
        = (LogStream.create .INFO "f.cpp" 3).contents ++ ['\n']) :=
  ⟨⟨List.length_replicate BUFFER_SIZE '\x00', by decide⟩,
   c5_append_exactness (LogStream.create .INFO "f.cpp" 3)
     (List.length_replicate BUFFER_SIZE '\x00') (by decide)⟩

theorem natDigitChars_map_val (m : Nat) :
    ((natDigitChars m).map (fun c => c.toNat - 48)).reverse = Nat.digits 10 m := by
  unfold natDigitChars
  rw [List.map_map]
  have hcong : ((Nat.digits 10 m).reverse).map
      ((fun c => c.toNat - 48) ∘ fun d => Char.ofNat (48 + d)) =
      ((Nat.digits 10 m).reverse).map id := by
    refine List.map_congr_left ?_
    intro d hd
    have hd10 : d < 10 := Nat.digits_lt_base (by norm_num) (List.mem_reverse.mp hd)
    show (Char.ofNat (48 + d)).toNat - 48 = d
    interval_cases d <;> rfl
  rw [hcong, List.map_id, List.reverse_reverse]

theorem intToChars_head_neg (n : Int) (h : n < 0) :
    (intToChars n).head? = some '-' := by
  unfold intToChars
  rw [if_neg (by omega), if_pos h]
  rfl

theorem intToChars_val (n : Int) :
    Nat.ofDigits 10 ((((intToChars n).drop (if n < 0 then 1 else 0)).map
      (fun c => c.toNat - 48)).reverse) = n.natAbs := by
  by_cases h0 : n = 0
  · subst h0
    decide
  · by_cases hneg : n < 0
    · unfold intToChars
      rw [if_neg h0, if_pos hneg, if_pos hneg]
      show Nat.ofDigits 10 (((natDigitChars (-n).toNat).map
        (fun c => c.toNat - 48)).reverse) = n.natAbs
      rw [natDigitChars_map_val, Nat.ofDigits_digits]
      omega
    · unfold intToChars
      rw [if_neg h0, if_neg hneg, if_neg hneg]
      show Nat.ofDigits 10 (((natDigitChars n.toNat).map
        (fun c => c.toNat - 48)).reverse) = n.natAbs
      rw [natDigitChars_map_val, Nat.ofDigits_digits]
      omega

/-- C10.  Integer appends are all-or-nothing: with `offset_` at or past
`BUFFER_SIZE - 24` the append leaves the stream untouched (no digit
prefix); otherwise the full canonical decimal representation is appended
(leading `-` for a negative value, digits recovering the magnitude), the
24-byte reserve being large enough for any value of a C++ integral type of
at most 64 bits. -/
theorem c10_integer_append (s : LogStream) (n : Int)
    (hB : s.buffer_.length = BUFFER_SIZE)
    (hn : -(2 ^ 63) ≤ n ∧ n < 2 ^ 64) :
    (BUFFER_SIZE - 24 ≤ s.offset_ → s.appendInt n = s)
  ∧ (s.offset_ < BUFFER_SIZE - 24 →
      ((s.appendInt n).contents = s.contents ++ intToChars n
      ∧ (s.appendInt n).offset_ = s.offset_ + (intToChars n).length
      ∧ (n < 0 → (intToChars n).head? = some '-')
      ∧ Nat.ofDigits 10 ((((intToChars n).drop (if n < 0 then 1 else 0)).map
          (fun c => c.toNat - 48)).reverse) = n.natAbs)) := by
  constructor
  · intro h
    exact appendInt_skip s n (by omega)
  · intro h
    have hc := appendInt_contents s n hn hB h
    exact ⟨hc.1, hc.2, fun hneg => intToChars_head_neg n hneg, intToChars_val n⟩

/-- C10 (witness).  The integer append evaluated on a fresh stream at the
value `-42`. -/
theorem c10_integer_append_witness :
    ((LogStream.create .INFO "f.cpp" 3).buffer_.length = BUFFER_SIZE
      ∧ (-(2 ^ 63) ≤ (-42 : Int) ∧ (-42 : Int) < 2 ^ 64)
      ∧ (LogStream.create .INFO "f.cpp" 3).offset_ < BUFFER_SIZE - 24)
  ∧ (((LogStream.create .INFO "f.cpp" 3).appendInt (-42)).contents
        = (LogStream.create .INFO "f.cpp" 3).contents ++ intToChars (-42)
    ∧ ((LogStream.create .INFO "f.cpp" 3).appendInt (-42)).offset_
        = (LogStream.create .INFO "f.cpp" 3).offset_ + (intToChars (-42)).length
    ∧ ((-42 : Int) < 0 → (intToChars (-42)).head? = some '-')
    ∧ Nat.ofDigits 10 ((((intToChars (-42 : Int)).drop
        (if (-42 : Int) < 0 then 1 else 0)).map
        (fun c => c.toNat - 48)).reverse) = (-42 : Int).natAbs) :=
  ⟨⟨List.length_replicate BUFFER_SIZE '\x00', by norm_num, by decide⟩,
   (c10_integer_append (LogStream.create .INFO "f.cpp" 3) (-42)
     (List.length_replicate BUFFER_SIZE '\x00') (by norm_num)).2 (by decide)⟩

theorem string_mk_data (cs : List Char) : (String.mk cs).data = cs := rfl

theorem esc_not_mem_natDigitChars (m : Nat) : '\x1b' ∉ natDigitChars m := by
  intro hmem
  unfold natDigitChars at hmem
  rw [List.mem_map] at hmem
  obtain ⟨d, hd, hchar⟩ := hmem
  have hd10 : d < 10 := Nat.digits_lt_base (by norm_num) (List.mem_reverse.mp hd)
  interval_cases d <;> exact absurd hchar (by decide)

theorem esc_not_mem_intToChars (n : Int) : '\x1b' ∉ intToChars n := by
  unfold intToChars
  split
  · decide
  · split
    · intro hmem
      rcases List.mem_cons.mp hmem with h | h
      · exact absurd h (by decide)
      · exact esc_not_mem_natDigitChars _ h
    · exact esc_not_mem_natDigitChars _

/-- C7.  The console and file renderings share the layout
`TIME [token] file:line - message\n` with identical field order and
separators, differing only in the level token: the console wraps it in the
severity-keyed ANSI color escape (blue, green, yellow, red) plus a reset,
while the file rendering contains no escape character at all (whenever the
inputs themselves contain none). -/
theorem c7_render_layout (t : String) (level : LogLevel) (f : String)
    (n : Int) (m : String)
    (ht : '\x1b' ∉ t.data) (hf : '\x1b' ∉ f.data) (hm : '\x1b' ∉ m.data) :
    consoleRender t level f n m =
      layoutRender t
        (logLevelToColorCode level ++ logLevelToString level ++ "\x1b[0m") f n m
  ∧ fileRender t level f n m = layoutRender t (logLevelToString level) f n m
  ∧ logLevelToColorCode .DEBUG = "\x1b[34m"
  ∧ logLevelToColorCode .INFO = "\x1b[32m"
  ∧ logLevelToColorCode .WARNING = "\x1b[33m"
  ∧ logLevelToColorCode .ERROR = "\x1b[31m"
  ∧ '\x1b' ∉ (fileRender t level f n m).data := by
  refine ⟨?_, rfl, rfl, rfl, rfl, rfl, ?_⟩
  · apply string_eq_of_data
    simp [consoleRender, layoutRender, string_data_append, List.append_assoc]
  · have hlevel : '\x1b' ∉ (logLevelToString level).data := by
      cases level <;> decide
    have hint : '\x1b' ∉ intToChars n := esc_not_mem_intToChars n
    have h1 : '\x1b' ∉ (" [" : String).data := by decide
    have h2 : '\x1b' ∉ ("] " : String).data := by decide
    have h3 : '\x1b' ∉ (":" : String).data := by decide
    have h4 : '\x1b' ∉ (" - " : String).data := by decide
    have h5 : '\x1b' ∉ ("\n" : String).data := by decide
    intro hmem
    unfold fileRender at hmem
    simp only [string_data_append, string_mk_data, List.mem_append] at hmem
    tauto

/-- C7 (witness).  The layout relation evaluated at a concrete record. -/
theorem c7_render_layout_witness :
    ('\x1b' ∉ ("1970-01-01 00:01:40" : String).data
      ∧ '\x1b' ∉ ("f.cpp" : String).data
      ∧ '\x1b' ∉ ("hello" : String).data)
  ∧ (consoleRender "1970-01-01 00:01:40" .INFO "f.cpp" 3 "hello" =
      layoutRender "1970-01-01 00:01:40"
        (logLevelToColorCode .INFO ++ logLevelToString .INFO ++ "\x1b[0m")
        "f.cpp" 3 "hello"
    ∧ fileRender "1970-01-01 00:01:40" .INFO "f.cpp" 3 "hello" =
        layoutRender "1970-01-01 00:01:40" (logLevelToString .INFO) "f.cpp" 3 "hello"
    ∧ logLevelToColorCode .DEBUG = "\x1b[34m"
    ∧ logLevelToColorCode .INFO = "\x1b[32m"
    ∧ logLevelToColorCode .WARNING = "\x1b[33m"
    ∧ logLevelToColorCode .ERROR = "\x1b[31m"
    ∧ '\x1b' ∉ (fileRender "1970-01-01 00:01:40" .INFO "f.cpp" 3 "hello").data) :=
  ⟨⟨by decide, by decide, by decide⟩,
   c7_render_layout "1970-01-01 00:01:40" .INFO "f.cpp" 3 "hello"
     (by decide) (by decide) (by decide)⟩

theorem log_filtered (env : LogEnv) (st : LoggerState) (level : LogLevel)
    (msg file : String) (line : Int) (h : level.toNat < st.level_.toNat) :
    Logger.log env st level msg file line = ⟨st, [], false, []⟩ := by
  unfold Logger.log
  rw [if_pos h]

theorem log_passing_timeStr (env : LogEnv) (st : LoggerState) (level : LogLevel)
    (msg file : String) (line : Int) (h : ¬level.toNat < st.level_.toNat) :
    (Logger.log env st level msg file line).state.timeStr_ =
      (timeStep env st).1.timeStr_ := by
  unfold Logger.log
  rw [if_neg h]
  exact fileStep_timeStr env (timeStep env st).1 level file line msg

theorem log_passing_lastTime (env : LogEnv) (st : LoggerState) (level : LogLevel)
    (msg file : String) (line : Int) (h : ¬level.toNat < st.level_.toNat) :
    (Logger.log env st level msg file line).state.lastTime_ =
      (timeStep env st).1.lastTime_ := by
  unfold Logger.log
  rw [if_neg h]
  exact fileStep_lastTime env (timeStep env st).1 level file line msg

theorem log_passing_formatted (env : LogEnv) (st : LoggerState) (level : LogLevel)
    (msg file : String) (line : Int) (h : ¬level.toNat < st.level_.toNat) :
    (Logger.log env st level msg file line).formatted = (timeStep env st).2 := by
  unfold Logger.log
  rw [if_neg h]

theorem timeStep_eq_same (env : LogEnv) (st : LoggerState)
    (h : env.now = st.lastTime_) : timeStep env st = (st, false) := by
  unfold timeStep
  rw [if_pos h]

theorem timeStep_eq_diff (env : LogEnv) (st : LoggerState)
    (h : ¬env.now = st.lastTime_) :
    timeStep env st =
      ({ st with timeStr_ := env.fmt env.now, lastTime_ := env.now }, true) := by
  unfold timeStep
  rw [if_neg h]

/-- C8 (amended).  The cached time string is refreshed inside `log` exactly
when the call passes the severity filter and the current second differs
from the cached one; the invariant `timeStr_ = fmt lastTime_` is
established by every refreshing call, preserved by every call, and holds
after every filter-passing call at a nonzero wall-clock time from a
reachable state; two calls within the same wall-clock second format at
most once. -/
theorem c8_time_cache (env : LogEnv) (st : LoggerState) (level level2 : LogLevel)
    (msg file msg2 file2 : String) (line line2 : Int) :
    ((Logger.log env st level msg file line).formatted = true ↔
      (st.level_.toNat ≤ level.toNat ∧ env.now ≠ st.lastTime_))
  ∧ (st.timeStr_ = env.fmt st.lastTime_ →
      (Logger.log env st level msg file line).state.timeStr_ =
        env.fmt (Logger.log env st level msg file line).state.lastTime_)
  ∧ (ReachTimeInv env.fmt st →
      ReachTimeInv env.fmt (Logger.log env st level msg file line).state)
  ∧ (ReachTimeInv env.fmt st → st.level_.toNat ≤ level.toNat → env.now ≠ 0 →
      (Logger.log env st level msg file line).state.timeStr_ =
        env.fmt (Logger.log env st level msg file line).state.lastTime_)
  ∧ ((if (Logger.log env st level msg file line).formatted then 1 else 0) +
      (if (Logger.log env (Logger.log env st level msg file line).state
          level2 msg2 file2 line2).formatted then 1 else 0) ≤ 1) := by
  by_cases hpass : level.toNat < st.level_.toNat
  · rw [log_filtered env st level msg file line hpass]
    refine ⟨?_, ?_, ?_, ?_, ?_⟩
    · show false = true ↔ _
      constructor
      · intro h; exact absurd h (by decide)
      · intro h; omega
    · exact fun h => h
    · exact fun h => h
    · intro _ hle _; omega
    · show 0 + _ ≤ 1
      split <;> omega
  · by_cases hnow : env.now = st.lastTime_
    · have hts := timeStep_eq_same env st hnow
      refine ⟨?_, ?_, ?_, ?_, ?_⟩
      · rw [log_passing_formatted env st level msg file line hpass, hts]
        show false = true ↔ _
        constructor
        · intro h; exact absurd h (by decide)
        · intro h; exact absurd hnow h.2
      · intro h
        rw [log_passing_timeStr env st level msg file line hpass,
          log_passing_lastTime env st level msg file line hpass, hts]
        exact h
      · intro h
        intro hz
        rw [log_passing_timeStr env st level msg file line hpass,
          log_passing_lastTime env st level msg file line hpass, hts] at *
        exact h hz
      · intro hinv hle hz
        rw [log_passing_timeStr env st level msg file line hpass,
          log_passing_lastTime env st level msg file line hpass, hts]
        exact hinv (by rw [← hnow] at *; exact hz)
      · rw [log_passing_formatted env st level msg file line hpass, hts]
        show 0 + _ ≤ 1
        split <;> omega
    · have hts := timeStep_eq_diff env st hnow
      have hform : (Logger.log env st level msg file line).formatted = true := by
        rw [log_passing_formatted env st level msg file line hpass, hts]
      have hTs : (Logger.log env st level msg file line).state.timeStr_ =
          env.fmt env.now := by
        rw [log_passing_timeStr env st level msg file line hpass, hts]
      have hLt : (Logger.log env st level msg file line).state.lastTime_ =
          env.now := by
        rw [log_passing_lastTime env st level msg file line hpass, hts]
      refine ⟨?_, ?_, ?_, ?_, ?_⟩
      · rw [hform]
        simp only [true_iff]
        exact ⟨Nat.le_of_not_lt hpass, hnow⟩
      · intro _
        rw [hTs, hLt]
      · intro _
        intro hz
        rw [hTs, hLt]
      · intro _ _ _
        rw [hTs, hLt]
      · rw [hform]
        have hsecond : (Logger.log env (Logger.log env st level msg file line).state
            level2 msg2 file2 line2).formatted = false := by
          by_cases hpass2 : level2.toNat <
              (Logger.log env st level msg file line).state.level_.toNat
          · rw [log_filtered env _ level2 msg2 file2 line2 hpass2]
          · rw [log_passing_formatted env _ level2 msg2 file2 line2 hpass2,
              timeStep_eq_same env _ (by rw [hLt])]
        rw [hsecond]
        simp

/-- C8 (counterexample).  In the boot state (`timeStr_` zeroed to the empty
string, `lastTime_ = 0`) a filtered-out `log` call leaves the state
untouched, and the cached string is not the `strftime` rendering of the
cached second (every `"%Y-%m-%d %H:%M:%S"` rendering is a nonempty
19-character string): the claimed invariant does not hold after every
`log` call. -/
theorem c8_time_cache_counterexample :
    (Logger.log c8Env initialLoggerState .DEBUG "m" "f.cpp" 7).state = initialLoggerState
  ∧ (∀ t, c8Env.fmt t = "1970-01-01 00:00:00")
  ∧ (Logger.log c8Env initialLoggerState .DEBUG "m" "f.cpp" 7).state.timeStr_ ≠
      c8Env.fmt (Logger.log c8Env initialLoggerState .DEBUG "m" "f.cpp" 7).state.lastTime_ :=
  ⟨rfl, fun _ => rfl, by decide⟩

/-- C8 (witness).  The cache laws evaluated in a reachable state: the state
after one INFO call at second 100 from boot, where the invariant holds. -/
theorem c8_time_cache_witness :
    ((Logger.log wEnv initialLoggerState .INFO "a" "f.cpp" 1).state.timeStr_ =
        wEnv.fmt (Logger.log wEnv initialLoggerState .INFO "a" "f.cpp" 1).state.lastTime_
      ∧ LogLevel.toNat (Logger.log wEnv initialLoggerState .INFO "a" "f.cpp" 1).state.level_ ≤
          LogLevel.toNat .INFO
      ∧ wEnv.now ≠ (0 : Int))
  ∧ ((Logger.log wEnv (Logger.log wEnv initialLoggerState .INFO "a" "f.cpp" 1).state
        .INFO "m" "f.cpp" 7).formatted = true ↔
      ((Logger.log wEnv initialLoggerState .INFO "a" "f.cpp" 1).state.level_.toNat ≤
          LogLevel.toNat .INFO
        ∧ wEnv.now ≠ (Logger.log wEnv initialLoggerState .INFO "a" "f.cpp" 1).state.lastTime_))
  ∧ ((Logger.log wEnv (Logger.log wEnv initialLoggerState .INFO "a" "f.cpp" 1).state
        .INFO "m" "f.cpp" 7).state.timeStr_ =
      wEnv.fmt (Logger.log wEnv (Logger.log wEnv initialLoggerState .INFO "a" "f.cpp" 1).state
        .INFO "m" "f.cpp" 7).state.lastTime_)
  ∧ ((if (Logger.log wEnv (Logger.log wEnv initialLoggerState .INFO "a" "f.cpp" 1).state
        .INFO "m" "f.cpp" 7).formatted then 1 else 0) +
      (if (Logger.log wEnv (Logger.log wEnv (Logger.log wEnv initialLoggerState
          .INFO "a" "f.cpp" 1).state .INFO "m" "f.cpp" 7).state
        .WARNING "m2" "g.cpp" 8).formatted then 1 else 0) ≤ 1) :=
  ⟨⟨by decide, by decide, by decide⟩,
   (c8_time_cache wEnv (Logger.log wEnv initialLoggerState .INFO "a" "f.cpp" 1).state
     .INFO .WARNING "m" "f.cpp" "m2" "g.cpp" 7 8).1,
   (c8_time_cache wEnv (Logger.log wEnv initialLoggerState .INFO "a" "f.cpp" 1).state
     .INFO .WARNING "m" "f.cpp" "m2" "g.cpp" 7 8).2.1 (by decide),
   (c8_time_cache wEnv (Logger.log wEnv initialLoggerState .INFO "a" "f.cpp" 1).state
     .INFO .WARNING "m" "f.cpp" "m2" "g.cpp" 7 8).2.2.2.2⟩
